import Mathlib

/-!
Verification of the SeedKey server SDK protocol core against its
natural-language specification.

The development is a shallow embedding of the TypeScript sources:

* `src/types/challenge.ts`, `src/types/user.ts`, `src/types/token.ts`,
  `src/types/errors.ts`, `src/types/config.ts` — data model;
* `src/crypto/challenge.ts` — `canonicalizeChallenge`, `validateChallenge`;
* `src/crypto/ed25519.ts` — `verifySignature`;
* `src/services/auth.service.ts` — the `AuthService` orchestrator
  (`createChallenge`, `register`, `verify`);
* `examples/nextjs/lib/storage/memory.ts` — the in-memory challenge store.

JavaScript numbers that hold millisecond timestamps are modelled as `Int`
(every value produced by `Date.now()` and the arithmetic done on it is
integral).  Strings are Lean `String`s.  Optional values are `Option`s.
The wall clock, random generators, the Ed25519 primitive and the injected
storage adapters are modelled as explicit oracle fields of an environment
record, and each orchestrator flow additionally returns the ordered list
of state-mutating adapter calls it performed, so that frame conditions
("no partial state on rejection") are provable.
-/

namespace SeedKey

/-! ## Data model (src/types) -/

/-- Challenge record from `src/types/challenge.ts`.  The TypeScript type
restricts `action` to the two literals, but the orchestrator re-checks the
value at run time, so `action` is modelled as an arbitrary string. -/
structure Challenge where
  nonce : String
  timestamp : Int
  domain : String
  action : String
  expiresAt : Int
deriving Repr, DecidableEq

/-- StoredChallenge record from `src/types/challenge.ts`: a Challenge plus
storage metadata. -/
structure StoredChallenge where
  id : String
  nonce : String
  timestamp : Int
  domain : String
  action : String
  expiresAt : Int
  publicKey : Option String
  used : Bool
  createdAt : Int
deriving Repr, DecidableEq

/-- PublicKeyInfo from `src/types/user.ts`. -/
structure PublicKeyInfo where
  id : String
  publicKey : String
  deviceName : Option String
  addedAt : Int
  lastUsed : Int
deriving Repr, DecidableEq

/-- User entity from `src/types/user.ts` (single key per user). -/
structure User where
  id : String
  publicKey : PublicKeyInfo
  createdAt : Int
  lastLogin : Option Int
deriving Repr, DecidableEq

/-- UserMetadata from `src/types/user.ts`. -/
structure UserMetadata where
  deviceName : Option String
  extensionVersion : Option String
deriving Repr, DecidableEq

/-- TokenPair from `src/types/token.ts`. -/
structure TokenPair where
  accessToken : String
  refreshToken : String
  expiresIn : Int
deriving Repr, DecidableEq

/-- SeedKeyError from `src/types/errors.ts`: code, message, transport
status and optional hint.  The constructor defaults mirror
`statusCode: number = 400` and the absent `hint`. -/
structure SeedKeyError where
  code : String
  message : String
  statusCode : Int := 400
  hint : Option String := none
deriving Repr, DecidableEq

/-! ## Configuration (src/types/config.ts) -/

/-- SeedKeyConfig: user-facing configuration; optional fields are the
TypeScript optionals. -/
structure SeedKeyConfig where
  allowedDomains : List String
  challengeTTL : Option Int
  currentDomain : Option String
deriving Repr, DecidableEq

/-- ResolvedConfig: configuration with defaults applied. -/
structure ResolvedConfig where
  allowedDomains : List String
  challengeTTL : Int
  currentDomain : String
deriving Repr, DecidableEq

/-- DEFAULT_CONFIG.challengeTTL = 5 minutes in milliseconds. -/
def defaultChallengeTTL : Int := 5 * 60 * 1000

/-- resolveConfig from `src/types/config.ts`.  The `??` operator replaces
only `null`/`undefined` (modelled by `Option.getD`), so an explicit
`challengeTTL` of `0` is kept.  `config.allowedDomains[0]` on an empty
array would be `undefined` in JavaScript; it is modelled as `""` here
(none of the verified claims depends on that corner). -/
def resolveConfig (config : SeedKeyConfig) : ResolvedConfig :=
  { allowedDomains := config.allowedDomains
  , challengeTTL := config.challengeTTL.getD defaultChallengeTTL
  , currentDomain := config.currentDomain.getD (config.allowedDomains.headD "") }

/-! ## Canonical encoder (src/crypto/challenge.ts) -/

/-- Hexadecimal digit characters, used by the `\uXXXX` escape. -/
def hexDigit (n : Nat) : Char :=
  if n < 10 then Char.ofNat (48 + n) else Char.ofNat (87 + n)

/-- Four-digit lowercase hexadecimal rendering of a code point below
0x10000, as produced by `JSON.stringify` for control characters. -/
def hex4 (n : Nat) : String :=
  String.mk [hexDigit (n / 4096 % 16), hexDigit (n / 256 % 16),
             hexDigit (n / 16 % 16), hexDigit (n % 16)]

/-- Escape of a single character following the `JSON.stringify` quoting
rules for strings. -/
def jsonEscapeChar (c : Char) : String :=
  if c = '"' then "\\\""
  else if c = '\\' then "\\\\"
  else if c = '\x08' then "\\b"
  else if c = '\t' then "\\t"
  else if c = '\n' then "\\n"
  else if c = '\x0c' then "\\f"
  else if c = '\r' then "\\r"
  else if c.toNat < 32 then "\\u" ++ hex4 c.toNat
  else String.singleton c

/-- Quoted JSON string literal, as produced by `JSON.stringify` on a
string value. -/
def jsonString (s : String) : String :=
  "\"" ++ String.join (s.data.map jsonEscapeChar) ++ "\""

/-- JSON values that can appear in a canonicalized challenge: strings and
integral numbers.  `JSON.stringify` renders an integral JavaScript number
without a decimal point, which is exactly `Int` rendering. -/
inductive JsonValue where
  | str (s : String)
  | int (n : Int)
deriving Repr, DecidableEq

/-- Rendering of a single JSON value. -/
def JsonValue.render : JsonValue → String
  | .str s => jsonString s
  | .int n => toString n

/-- Rendering of a JSON object with the given insertion-ordered fields,
with no whitespace, as `JSON.stringify` does for a plain record. -/
def jsonStringifyObj (fields : List (String × JsonValue)) : String :=
  "\x7b" ++
    String.intercalate "," (fields.map fun kv => jsonString kv.fst ++ ":" ++ kv.snd.render) ++
  "\x7d"

/-- canonicalizeChallenge from `src/crypto/challenge.ts`: a fresh record
is populated with the five signable fields in the fixed key order
`action, domain, expiresAt, nonce, timestamp` and then JSON-stringified. -/
def canonicalizeChallenge (c : Challenge) : String :=
  jsonStringifyObj
    [("action", .str c.action), ("domain", .str c.domain),
     ("expiresAt", .int c.expiresAt), ("nonce", .str c.nonce),
     ("timestamp", .int c.timestamp)]

/-! ## Challenge validator (src/crypto/challenge.ts) -/

/-- ChallengeValidation result record. -/
structure ChallengeValidation where
  valid : Bool
  error : Option String
deriving Repr, DecidableEq

/-- Allowed-domains argument of `validateChallenge`: a single domain
string or an array of domains (the TypeScript `string | string[]`). -/
abbrev AllowedDomains := String ⊕ List String

/-- JavaScript truthiness of the `allowedDomains` argument inside
`if (allowedDomains)`: an empty string is falsy, every array (even the
empty one) is truthy. -/
def allowedDomainsTruthy : AllowedDomains → Bool
  | .inl s => !s.isEmpty
  | .inr _ => true

/-- Normalisation `Array.isArray(allowedDomains) ? allowedDomains :
[allowedDomains]` of the allowed-domains argument to a list. -/
def allowedDomainsList : AllowedDomains → List String
  | .inl s => [s]
  | .inr l => l

/-- validateChallenge from `src/crypto/challenge.ts`.  The wall clock read
`Date.now()` is passed explicitly as `now`. -/
def validateChallenge (challenge : Challenge) (allowedDomains : Option AllowedDomains)
    (now : Int) : ChallengeValidation :=
  if now > challenge.expiresAt then
    ⟨false, some "Challenge expired"⟩
  else if challenge.timestamp > now + 30000 then
    ⟨false, some "Challenge timestamp is in the future"⟩
  else
    match allowedDomains with
    | none => ⟨true, none⟩
    | some ad =>
      if allowedDomainsTruthy ad then
        let domains := allowedDomainsList ad
        if challenge.domain ∈ domains then ⟨true, none⟩
        else ⟨false, some ("Domain mismatch. Allowed: " ++ String.intercalate ", " domains)⟩
      else ⟨true, none⟩

/-! ## Signature verifier (src/crypto/ed25519.ts) -/

/-- Oracle environment for `verifySignature`: the base64 decoder and the
Ed25519 primitive, each of which may raise (modelled by `Except`). -/
structure Ed25519Env where
  decodeBase64 : String → Except String (List Nat)
  edVerify : List Nat → List Nat → List Nat → Except String Bool

/-- UTF-8 encoding of the message, the `TextEncoder().encode` step (it
cannot throw). -/
def encodeUtf8 (s : String) : List Nat :=
  s.toUTF8.toList.map UInt8.toNat

/-- Body of `verifySignature` before the surrounding `try`/`catch`:
decode, length-check the public key then the signature, and only then
invoke the Ed25519 primitive. -/
def verifySignatureBody (env : Ed25519Env) (signature message publicKey : String) :
    Except String Bool := do
  let signatureBytes ← env.decodeBase64 signature
  let messageBytes := encodeUtf8 message
  let publicKeyBytes ← env.decodeBase64 publicKey
  if publicKeyBytes.length ≠ 32 then
    pure false
  else if signatureBytes.length ≠ 64 then
    pure false
  else
    env.edVerify signatureBytes messageBytes publicKeyBytes

/-- verifySignature from `src/crypto/ed25519.ts`: the whole body runs
inside `try { ... } catch { return false; }`, so every raised exception
becomes the return value `false`. -/
def verifySignature (env : Ed25519Env) (signature message publicKey : String) : Bool :=
  match verifySignatureBody env signature message publicKey with
  | .ok b => b
  | .error _ => false

/-! ## Orchestrator (src/services/auth.service.ts) -/

/-- ChallengeRequest from `src/types/challenge.ts`; `action` is modelled
as a string because the orchestrator validates the value at run time. -/
structure ChallengeRequest where
  publicKey : String
  action : String
deriving Repr, DecidableEq

/-- RegisterRequest from `src/types/auth.ts`.  `challenge` is an `Option`
so that the run-time `!challenge` missing-field check is expressible. -/
structure RegisterRequest where
  publicKey : String
  challenge : Option Challenge
  signature : String
  metadata : Option UserMetadata
deriving Repr, DecidableEq

/-- VerifyRequest from `src/types/auth.ts`. -/
structure VerifyRequest where
  challengeId : String
  challenge : Option Challenge
  signature : String
  publicKey : String
deriving Repr, DecidableEq

/-- ChallengeResult from `src/types/challenge.ts`: the discriminated
union returned by `createChallenge`. -/
inductive ChallengeResult where
  | ok (challenge : Challenge) (challengeId : String)
  | fail (error : String) (hint : Option String)
deriving Repr, DecidableEq

/-- Challenge carried by a successful `ChallengeResult`, if any. -/
def ChallengeResult.challengeOf : ChallengeResult → Option Challenge
  | .ok c _ => some c
  | .fail _ _ => none

/-- RegisterResult / VerifyResult success payload: both carry the user,
its key info, the session id and the token pair. -/
structure AuthSuccess where
  user : User
  keyInfo : PublicKeyInfo
  sessionId : String
  tokens : TokenPair
deriving Repr, DecidableEq

/-- State-mutating adapter calls (plus the token-issuer call) that an
orchestrator flow can perform, recorded in execution order. -/
inductive Effect where
  | saveChallenge (sc : StoredChallenge)
  | createUser (publicKey : String) (metadata : Option UserMetadata)
  | markAsUsed (id : String)
  | updateLastLogin (userId : String) (publicKey : String)
  | createSession (userId : String) (publicKeyId : String)
  | generateTokens (userId : String) (publicKeyId : String) (sessionId : String)
deriving Repr, DecidableEq

/-- Oracle environment for the orchestrator: the resolved configuration,
the read results of the injected adapters, the values produced by the
random generators and the wall clock, and the outcome of cryptographic
signature verification.  `markAsUsedResult` is the boolean the challenge
adapter would return from `markAsUsed`. -/
structure AuthEnv where
  config : ResolvedConfig
  findByPublicKey : String → Option User
  publicKeyExists : String → Bool
  createUser : String → Option UserMetadata → User
  findChallengeById : String → Option StoredChallenge
  markAsUsedResult : String → Bool
  isNonceUsed : String → Bool
  createSession : String → String → String
  generateTokens : String → String → String → TokenPair
  verifySig : Challenge → String → String → Bool
  now : Int
  freshNonce : String
  freshId : String → String

/-- JavaScript `validity.error || fallback`: the fallback is used when
the field is absent or the empty string. -/
def jsOr (s : Option String) (d : String) : String :=
  match s with
  | some v => if v.isEmpty then d else v
  | none => d

/-- createChallenge from `src/services/auth.service.ts`, paired with the
list of state-mutating adapter calls it performs. -/
def createChallenge (env : AuthEnv) (request : ChallengeRequest) :
    ChallengeResult × List Effect :=
  if request.publicKey.isEmpty || request.action.isEmpty then
    (.fail "publicKey and action are required" none, [])
  else if request.action ≠ "authenticate" ∧ request.action ≠ "register" then
    (.fail "action must be \"authenticate\" or \"register\"" none, [])
  else if request.action = "authenticate" ∧ (env.findByPublicKey request.publicKey).isNone then
    (.fail "USER_NOT_FOUND" (some "register"), [])
  else if request.action = "register" ∧ env.publicKeyExists request.publicKey then
    (.fail "USER_EXISTS" (some "authenticate"), [])
  else
    let challengeId := env.freshId "ch"
    let challenge : Challenge :=
      { nonce := env.freshNonce
      , timestamp := env.now
      , domain := env.config.currentDomain
      , action := request.action
      , expiresAt := env.now + env.config.challengeTTL }
    let storedChallenge : StoredChallenge :=
      { id := challengeId
      , nonce := challenge.nonce
      , timestamp := challenge.timestamp
      , domain := challenge.domain
      , action := challenge.action
      , expiresAt := challenge.expiresAt
      , publicKey := some request.publicKey
      , used := false
      , createdAt := env.now }
    (.ok challenge challengeId, [.saveChallenge storedChallenge])

/-- StoredChallenge record that a successful `register` saves: a fresh
`ch`-prefixed id, the signed challenge fields, the requester binding and
`used: true`. -/
def registerSavedRecord (env : AuthEnv) (request : RegisterRequest) (c : Challenge) :
    StoredChallenge :=
  { id := env.freshId "ch"
  , nonce := c.nonce
  , timestamp := c.timestamp
  , domain := c.domain
  , action := c.action
  , expiresAt := c.expiresAt
  , publicKey := some request.publicKey
  , used := true
  , createdAt := env.now }

/-- register from `src/services/auth.service.ts`, paired with its list of
state-mutating adapter calls. -/
def register (env : AuthEnv) (request : RegisterRequest) :
    Except SeedKeyError AuthSuccess × List Effect :=
  match request.challenge with
  | none =>
    (.error ⟨"VALIDATION_ERROR", "publicKey, challenge, and signature are required", 400, none⟩, [])
  | some challenge =>
    if request.publicKey.isEmpty || request.signature.isEmpty then
      (.error ⟨"VALIDATION_ERROR", "publicKey, challenge, and signature are required", 400, none⟩, [])
    else if challenge.action ≠ "register" then
      (.error ⟨"INVALID_CHALLENGE", "Challenge action must be \"register\"", 400, none⟩, [])
    else if env.publicKeyExists request.publicKey then
      (.error ⟨"USER_EXISTS", "User with this public key already exists", 409, some "authenticate"⟩, [])
    else if env.isNonceUsed challenge.nonce then
      (.error ⟨"NONCE_REUSED", "This challenge has already been used", 400, none⟩, [])
    else
      let validity := validateChallenge challenge (some (.inr env.config.allowedDomains)) env.now
      if !validity.valid then
        (.error ⟨"CHALLENGE_EXPIRED", jsOr validity.error "Challenge validation failed", 400, none⟩, [])
      else if !env.verifySig challenge request.signature request.publicKey then
        (.error ⟨"INVALID_SIGNATURE", "Signature verification failed", 401, none⟩, [])
      else
        let user := env.createUser request.publicKey request.metadata
        let keyInfo := user.publicKey
        let saved := registerSavedRecord env request challenge
        let sessionId := env.createSession user.id keyInfo.id
        let tokens := env.generateTokens user.id keyInfo.id sessionId
        (.ok ⟨user, keyInfo, sessionId, tokens⟩,
         [.createUser request.publicKey request.metadata,
          .saveChallenge saved,
          .createSession user.id keyInfo.id,
          .generateTokens user.id keyInfo.id sessionId])

/-- verify from `src/services/auth.service.ts`, paired with its list of
state-mutating adapter calls.  The boolean returned by the adapter for
`markAsUsed` (`env.markAsUsedResult`) is discarded, exactly as the source
discards the awaited value. -/
def verify (env : AuthEnv) (request : VerifyRequest) :
    Except SeedKeyError AuthSuccess × List Effect :=
  match request.challenge with
  | none =>
    (.error ⟨"VALIDATION_ERROR", "challengeId, challenge, signature, and publicKey are required", 400, none⟩, [])
  | some challenge =>
    if request.challengeId.isEmpty || request.signature.isEmpty || request.publicKey.isEmpty then
      (.error ⟨"VALIDATION_ERROR", "challengeId, challenge, signature, and publicKey are required", 400, none⟩, [])
    else if challenge.action ≠ "authenticate" then
      (.error ⟨"INVALID_CHALLENGE", "Challenge action must be \"authenticate\"", 400, none⟩, [])
    else
      match env.findChallengeById request.challengeId with
      | none =>
        (.error ⟨"CHALLENGE_NOT_FOUND", "Challenge not found", 400, none⟩, [])
      | some storedChallenge =>
        if storedChallenge.used then
          (.error ⟨"NONCE_REUSED", "This challenge has already been used", 400, none⟩, [])
        else if env.isNonceUsed challenge.nonce then
          (.error ⟨"NONCE_REUSED", "This challenge has already been used", 400, none⟩, [])
        else
          let validity := validateChallenge challenge (some (.inr env.config.allowedDomains)) env.now
          if !validity.valid then
            (.error ⟨"CHALLENGE_EXPIRED", jsOr validity.error "Challenge validation failed", 400, none⟩, [])
          else
            match env.findByPublicKey request.publicKey with
            | none =>
              (.error ⟨"USER_NOT_FOUND", "No user found with this public key", 404, some "register"⟩, [])
            | some user =>
              if !env.verifySig challenge request.signature request.publicKey then
                (.error ⟨"INVALID_SIGNATURE", "Signature verification failed", 401, none⟩, [])
              else
                let keyInfo := user.publicKey
                let sessionId := env.createSession user.id keyInfo.id
                let tokens := env.generateTokens user.id keyInfo.id sessionId
                (.ok ⟨user, keyInfo, sessionId, tokens⟩,
                 [.markAsUsed request.challengeId,
                  .updateLastLogin user.id request.publicKey,
                  .createSession user.id keyInfo.id,
                  .generateTokens user.id keyInfo.id sessionId])

/-! ## In-memory challenge store (examples/nextjs/lib/storage/memory.ts) -/

/-- MemoryChallengeStore state: the id-keyed challenge map (modelled as
an association list with unique keys maintained by `save`) and the
used-nonce set. -/
structure MemoryChallengeStore where
  challenges : List (String × StoredChallenge)
  usedNonces : List String
deriving Repr, DecidableEq

namespace MemoryChallengeStore

/-- findById: `this.challenges.get(id) || null`. -/
def findById (s : MemoryChallengeStore) (id : String) : Option StoredChallenge :=
  (s.challenges.find? fun kv => kv.fst == id).map Prod.snd

/-- save: `Map.set` (replace an existing entry or append a new one), and
record the nonce as used when the saved record is used. -/
def save (s : MemoryChallengeStore) (sc : StoredChallenge) : MemoryChallengeStore :=
  { challenges :=
      if s.challenges.any fun kv => kv.fst == sc.id then
        s.challenges.map fun kv => if kv.fst == sc.id then (kv.fst, sc) else kv
      else
        s.challenges ++ [(sc.id, sc)]
  , usedNonces := if sc.used then sc.nonce :: s.usedNonces else s.usedNonces }

/-- markAsUsed: on a hit, flip the record to `used` in place and record
its nonce; return whether a record was found together with the updated
store. -/
def markAsUsed (s : MemoryChallengeStore) (id : String) : Bool × MemoryChallengeStore :=
  match s.findById id with
  | none => (false, s)
  | some ch =>
    (true,
     { challenges :=
         s.challenges.map fun kv => if kv.fst == id then (kv.fst, { ch with used := true }) else kv
     , usedNonces := ch.nonce :: s.usedNonces })

/-- isNonceUsed: membership in the used-nonce set. -/
def isNonceUsed (s : MemoryChallengeStore) (nonce : String) : Bool :=
  s.usedNonces.contains nonce

end MemoryChallengeStore

/-! ## Specification-side descriptions

The following definitions transcribe the specification text (the check
orders and outcomes the spec claims for the validator and the three
orchestrator flows).  They are written from the words of the spec and the
claims, to be compared with the source-derived functions above by
refinement theorems. -/

/-- Validator behaviour as the spec describes it, amended only by the
JavaScript truthiness of the allowed-domains argument: given `now = T`,
first an expired challenge (`now > expiresAt`) is invalid with the
"expired" reason; next a future timestamp beyond the fixed 30-second
tolerance is invalid with the future-timestamp reason; next, when a
truthy allowed-domains argument is given, a domain outside the allowed
set is invalid with a mismatch reason enumerating the set; otherwise the
challenge is valid. -/
def validateChallengeSpec (challenge : Challenge) (allowedDomains : Option AllowedDomains)
    (now : Int) : ChallengeValidation :=
  if now > challenge.expiresAt then
    ⟨false, some "Challenge expired"⟩
  else if challenge.timestamp > now + 30000 then
    ⟨false, some "Challenge timestamp is in the future"⟩
  else
    match allowedDomains with
    | some ad =>
      if allowedDomainsTruthy ad ∧ challenge.domain ∉ allowedDomainsList ad then
        ⟨false, some ("Domain mismatch. Allowed: " ++
          String.intercalate ", " (allowedDomainsList ad))⟩
      else ⟨true, none⟩
    | none => ⟨true, none⟩

/-- First failing check of the register flow in the order the spec
states, with the typed error the spec assigns to it: missing fields,
action mismatch, existing user, reused nonce, validator failure carrying
the validator reason, then signature failure. -/
def registerSpecFirstError (env : AuthEnv) (request : RegisterRequest) :
    Option SeedKeyError :=
  if request.publicKey.isEmpty || request.challenge.isNone || request.signature.isEmpty then
    some ⟨"VALIDATION_ERROR", "publicKey, challenge, and signature are required", 400, none⟩
  else
    match request.challenge with
    | none => some ⟨"VALIDATION_ERROR", "publicKey, challenge, and signature are required", 400, none⟩
    | some challenge =>
      if challenge.action ≠ "register" then
        some ⟨"INVALID_CHALLENGE", "Challenge action must be \"register\"", 400, none⟩
      else if env.publicKeyExists request.publicKey then
        some ⟨"USER_EXISTS", "User with this public key already exists", 409, some "authenticate"⟩
      else if env.isNonceUsed challenge.nonce then
        some ⟨"NONCE_REUSED", "This challenge has already been used", 400, none⟩
      else
        let validity := validateChallenge challenge (some (.inr env.config.allowedDomains)) env.now
        if !validity.valid then
          some ⟨"CHALLENGE_EXPIRED", jsOr validity.error "Challenge validation failed", 400, none⟩
        else if !env.verifySig challenge request.signature request.publicKey then
          some ⟨"INVALID_SIGNATURE", "Signature verification failed", 401, none⟩
        else
          none

/-- First failing check of the verify flow in the order the spec states,
with the typed error the spec assigns to it: missing fields, action
mismatch, stored-challenge lookup, used flag, global used-nonce index,
validator failure carrying the validator reason, user lookup with the
register hint, then signature failure. -/
def verifySpecFirstError (env : AuthEnv) (request : VerifyRequest) :
    Option SeedKeyError :=
  if request.challengeId.isEmpty || request.challenge.isNone ||
      request.signature.isEmpty || request.publicKey.isEmpty then
    some ⟨"VALIDATION_ERROR", "challengeId, challenge, signature, and publicKey are required", 400, none⟩
  else
    match request.challenge with
    | none => some ⟨"VALIDATION_ERROR", "challengeId, challenge, signature, and publicKey are required", 400, none⟩
    | some challenge =>
      if challenge.action ≠ "authenticate" then
        some ⟨"INVALID_CHALLENGE", "Challenge action must be \"authenticate\"", 400, none⟩
      else
        match env.findChallengeById request.challengeId with
        | none => some ⟨"CHALLENGE_NOT_FOUND", "Challenge not found", 400, none⟩
        | some storedChallenge =>
          if storedChallenge.used then
            some ⟨"NONCE_REUSED", "This challenge has already been used", 400, none⟩
          else if env.isNonceUsed challenge.nonce then
            some ⟨"NONCE_REUSED", "This challenge has already been used", 400, none⟩
          else
            let validity := validateChallenge challenge (some (.inr env.config.allowedDomains)) env.now
            if !validity.valid then
              some ⟨"CHALLENGE_EXPIRED", jsOr validity.error "Challenge validation failed", 400, none⟩
            else
              match env.findByPublicKey request.publicKey with
              | none => some ⟨"USER_NOT_FOUND", "No user found with this public key", 404, some "register"⟩
              | some _ =>
                if !env.verifySig challenge request.signature request.publicKey then
                  some ⟨"INVALID_SIGNATURE", "Signature verification failed", 401, none⟩
                else
                  none

/-- Failure outcome of `createChallenge` as the spec states it: missing
or unknown action data gives a generic validation failure; authenticate
without a user gives `USER_NOT_FOUND` with hint `register`; register with
an existing key gives `USER_EXISTS` with hint `authenticate`. -/
def createChallengeSpecError (env : AuthEnv) (request : ChallengeRequest) :
    Option (String × Option String) :=
  if request.publicKey.isEmpty || request.action.isEmpty then
    some ("publicKey and action are required", none)
  else if request.action ≠ "authenticate" ∧ request.action ≠ "register" then
    some ("action must be \"authenticate\" or \"register\"", none)
  else if request.action = "authenticate" ∧ (env.findByPublicKey request.publicKey).isNone then
    some ("USER_NOT_FOUND", some "register")
  else if request.action = "register" ∧ env.publicKeyExists request.publicKey then
    some ("USER_EXISTS", some "authenticate")
  else
    none

/-- Challenge that a successful `createChallenge` must return per the
spec: fresh nonce, issue time `now`, the configured domain, the requested
action, and `expiresAt = now + TTL`. -/
def specFreshChallenge (env : AuthEnv) (request : ChallengeRequest) : Challenge :=
  { nonce := env.freshNonce
  , timestamp := env.now
  , domain := env.config.currentDomain
  , action := request.action
  , expiresAt := env.now + env.config.challengeTTL }

/-! ## Concrete fixtures

Small concrete instances of the environment, used by the closed witness
and counterexample theorems below. -/

/-- Configuration fixture: one allowed domain, default TTL. -/
def cfgA : ResolvedConfig := resolveConfig ⟨["example.com"], none, none⟩

/-- User fixture. -/
def userA : User := ⟨"u1", ⟨"k1", "pkA", none, 0, 0⟩, 0, none⟩

/-- Stored authenticate-challenge fixture, not yet used. -/
def storedA : StoredChallenge :=
  ⟨"cid1", "nonceA", 0, "example.com", "authenticate", 1000, some "pkA", false, 0⟩

/-- Challenge-store fixture holding `storedA`. -/
def storeA : MemoryChallengeStore := ⟨[("cid1", storedA)], []⟩

/-- Environment fixture backed by `storeA`, with one registered user
`userA`, a passing signature oracle and clock 10. -/
def envA : AuthEnv :=
  { config := cfgA
  , findByPublicKey := fun k => if k == "pkA" then some userA else none
  , publicKeyExists := fun k => k == "pkA"
  , createUser := fun _ _ => userA
  , findChallengeById := storeA.findById
  , markAsUsedResult := fun _ => true
  , isNonceUsed := fun _ => false
  , createSession := fun _ _ => "sess1"
  , generateTokens := fun _ _ _ => ⟨"at", "rt", 3600⟩
  , verifySig := fun _ _ _ => true
  , now := 10
  , freshNonce := "nonceB"
  , freshId := fun pre => pre ++ "_1" }

/-- Submitted authenticate challenge matching `storedA`. -/
def chA : Challenge := ⟨"nonceA", 0, "example.com", "authenticate", 1000⟩

/-- Verify-request fixture for `storedA`. -/
def reqA : VerifyRequest := ⟨"cid1", some chA, "sig", "pkA"⟩

/-- Expected success payload of `verify envA reqA`. -/
def okA : AuthSuccess := ⟨userA, userA.publicKey, "sess1", ⟨"at", "rt", 3600⟩⟩

/-- Environment after the successful verify consumed `storedA`. -/
def envA2 : AuthEnv := { envA with findChallengeById := (storeA.markAsUsed "cid1").2.findById }

/-- Stored register-challenge fixture with the same id `cid1`. -/
def storedReg : StoredChallenge :=
  ⟨"cid1", "nonceA", 0, "example.com", "register", 1000, some "pkA", false, 0⟩

/-- Environment whose stored challenge `cid1` has action register. -/
def envReg : AuthEnv :=
  { envA with findChallengeById := MemoryChallengeStore.findById ⟨[("cid1", storedReg)], []⟩ }

/-- Environment with an explicitly zero challenge TTL. -/
def envTTL0 : AuthEnv := { envA with config := resolveConfig ⟨["example.com"], some 0, none⟩ }

/-- Environment whose challenge adapter reports a failed conditional
consume (markAsUsed returns false). -/
def envNoMark : AuthEnv := { envA with markAsUsedResult := fun _ => false }

/-- Register challenge fixture. -/
def chReg : Challenge := ⟨"nonceA", 0, "example.com", "register", 1000⟩

/-- Register-request fixture for a new key `pkB`. -/
def reqReg : RegisterRequest := ⟨"pkB", some chReg, "sig", none⟩

/-- Verify request whose submitted challenge has action register. -/
def reqBadV : VerifyRequest := ⟨"cid1", some chReg, "sig", "pkA"⟩

/-- Register request whose submitted challenge has action authenticate. -/
def reqBadR : RegisterRequest := ⟨"pkA", some chA, "sig", none⟩

/-- Test oracle for the signature verifier: every decode yields a single
byte and the primitive always raises. -/
def ed25519EnvShort : Ed25519Env :=
  { decodeBase64 := fun _ => .ok [0]
  , edVerify := fun _ _ _ => .error "primitive reached" }

/-! ## Theorems about the canonical encoder -/

/-- Canonical output shape, proved by computing the JSON rendering. -/
theorem canonicalizeChallenge_obj (c : Challenge) :
    canonicalizeChallenge c =
      "\x7b\"action\":" ++ jsonString c.action ++ ",\"domain\":" ++ jsonString c.domain ++
      ",\"expiresAt\":" ++ toString c.expiresAt ++ ",\"nonce\":" ++ jsonString c.nonce ++
      ",\"timestamp\":" ++ toString c.timestamp ++ "\x7d" := by
  show "\x7b" ++ String.intercalate ","
      [jsonString "action" ++ ":" ++ jsonString c.action,
       jsonString "domain" ++ ":" ++ jsonString c.domain,
       jsonString "expiresAt" ++ ":" ++ toString c.expiresAt,
       jsonString "nonce" ++ ":" ++ jsonString c.nonce,
       jsonString "timestamp" ++ ":" ++ toString c.timestamp] ++ "\x7d" = _
  have h₁ : jsonString "action" = "\"action\"" := by decide
  have h₂ : jsonString "domain" = "\"domain\"" := by decide
  have h₃ : jsonString "expiresAt" = "\"expiresAt\"" := by decide
  have h₄ : jsonString "nonce" = "\"nonce\"" := by decide
  have h₅ : jsonString "timestamp" = "\"timestamp\"" := by decide
  rw [h₁, h₂, h₃, h₄, h₅]
  apply String.ext
  simp [String.intercalate, String.intercalate.go, String.data_append, List.append_assoc]

/-- Claim C5: canonicalizeChallenge is deterministic — two challenges
that agree on the five signable fields yield byte-identical output (the
function reads nothing else) — and the output contains exactly those five
fields, keys in the fixed order action, domain, expiresAt, nonce,
timestamp, without whitespace, with the integral timestamps rendered as
plain integers. -/
theorem canonicalizeChallenge_deterministic_fixed_order (c₁ c₂ : Challenge)
    (hn : c₁.nonce = c₂.nonce) (ht : c₁.timestamp = c₂.timestamp)
    (hd : c₁.domain = c₂.domain) (ha : c₁.action = c₂.action)
    (he : c₁.expiresAt = c₂.expiresAt) :
    canonicalizeChallenge c₁ = canonicalizeChallenge c₂ ∧
    canonicalizeChallenge c₁ =
      "\x7b\"action\":" ++ jsonString c₁.action ++ ",\"domain\":" ++ jsonString c₁.domain ++
      ",\"expiresAt\":" ++ toString c₁.expiresAt ++ ",\"nonce\":" ++ jsonString c₁.nonce ++
      ",\"timestamp\":" ++ toString c₁.timestamp ++ "\x7d" := by
  refine ⟨?_, canonicalizeChallenge_obj c₁⟩
  rw [canonicalizeChallenge_obj c₁, canonicalizeChallenge_obj c₂, hn, ht, hd, ha, he]

/-- Witness for claim C5 at two concretely built challenges with the same
logical fields. -/
theorem canonicalizeChallenge_deterministic_fixed_order_witness :
    canonicalizeChallenge ⟨"n0", 5, "example.com", "authenticate", 11⟩ =
      canonicalizeChallenge ⟨"n0", 5, "example.com", "authenticate", 11⟩ ∧
    canonicalizeChallenge ⟨"n0", 5, "example.com", "authenticate", 11⟩ =
      "\x7b\"action\":" ++ jsonString "authenticate" ++ ",\"domain\":" ++ jsonString "example.com" ++
      ",\"expiresAt\":" ++ toString (11 : Int) ++ ",\"nonce\":" ++ jsonString "n0" ++
      ",\"timestamp\":" ++ toString (5 : Int) ++ "\x7d" :=
  canonicalizeChallenge_deterministic_fixed_order
    ⟨"n0", 5, "example.com", "authenticate", 11⟩
    ⟨"n0", 5, "example.com", "authenticate", 11⟩ rfl rfl rfl rfl rfl

/-! ## Theorems about the signature verifier -/

/-- Claim C6: verifySignature is fail-closed and never throws.  A decode
exception on the signature or the public key yields `false`; when both
decode, a public key of decoded length other than 32 or a signature of
decoded length other than 64 yields `false` for every possible Ed25519
primitive (the primitive is not invoked); and an exception raised by the
primitive itself is caught and becomes `false`. -/
theorem verifySignature_fail_closed (env : Ed25519Env) (s m p : String) :
    (∀ e, env.decodeBase64 s = .error e → verifySignature env s m p = false) ∧
    (∀ e sb, env.decodeBase64 s = .ok sb → env.decodeBase64 p = .error e →
      verifySignature env s m p = false) ∧
    (∀ sb pb, env.decodeBase64 s = .ok sb → env.decodeBase64 p = .ok pb →
      (pb.length ≠ 32 ∨ sb.length ≠ 64) →
      ∀ prim, verifySignature { env with edVerify := prim } s m p = false) ∧
    (∀ sb pb e, env.decodeBase64 s = .ok sb → env.decodeBase64 p = .ok pb →
      env.edVerify sb (encodeUtf8 m) pb = .error e →
      verifySignature env s m p = false) := by
  refine ⟨?_, ?_, ?_, ?_⟩
  · intro e h
    simp [verifySignature, verifySignatureBody, h, Bind.bind, Except.bind]
  · intro e sb hs hp
    simp [verifySignature, verifySignatureBody, hs, hp, Bind.bind, Except.bind]
  · intro sb pb hs hp hlen prim
    rcases hlen with h | h <;>
      simp [verifySignature, verifySignatureBody, hs, hp, h, Bind.bind, Except.bind,
        Pure.pure, Except.pure, ite_self]
  · intro sb pb e hs hp hv
    by_cases h32 : pb.length = 32
    · by_cases h64 : sb.length = 64 <;>
        simp [verifySignature, verifySignatureBody, hs, hp, h32, h64, hv, Bind.bind, Except.bind,
          Pure.pure, Except.pure]
    · simp [verifySignature, verifySignatureBody, hs, hp, h32, Bind.bind, Except.bind,
        Pure.pure, Except.pure]

/-- Witness for claim C6: with one-byte decodes the verifier returns
false for every primitive, in particular one that would return true. -/
theorem verifySignature_fail_closed_witness :
    verifySignature { ed25519EnvShort with edVerify := fun _ _ _ => .ok true } "s" "m" "p" = false :=
  (verifySignature_fail_closed ed25519EnvShort "s" "m" "p").2.2.1 [0] [0] rfl rfl
    (Or.inl (by decide)) (fun _ _ _ => .ok true)

/-! ## Theorems about the challenge validator -/

/-- Claim C7 counterexample: the allowed-domains argument `""` is given,
the challenge domain `"other.com"` is not a member of the allowed set
`[""]`, yet validateChallenge accepts the challenge, because the source
guards the domain check with JavaScript truthiness and the empty string
is falsy. -/
theorem validateChallenge_empty_string_domains_skipped :
    validateChallenge ⟨"n0", 0, "other.com", "authenticate", 100⟩ (some (Sum.inl "")) 0 =
      ⟨true, none⟩ ∧
    "other.com" ∉ allowedDomainsList (Sum.inl "") := by
  constructor
  · decide
  · decide

/-- Claim C7 (amended): validateChallenge applies its checks in the
stated order — expiry first, then the future-timestamp check with the
fixed 30-second tolerance, then domain membership — except that the
domain check runs only for a truthy allowed-domains argument (any list,
or a non-empty string); an empty-string argument is treated as absent.
The function is pure, hence deterministic given `now` and incapable of
mutating its input. -/
theorem validateChallenge_matches_spec (c : Challenge) (ad : Option AllowedDomains) (now : Int) :
    validateChallenge c ad now = validateChallengeSpec c ad now := by
  unfold validateChallenge validateChallengeSpec
  by_cases h1 : now > c.expiresAt
  · simp [h1]
  by_cases h2 : c.timestamp > now + 30000
  · simp [h1, h2]
  rcases ad with _ | ad
  · simp [h1, h2]
  by_cases ht : allowedDomainsTruthy ad
  · by_cases hm : c.domain ∈ allowedDomainsList ad <;> simp [h1, h2, ht, hm]
  · simp [h1, h2, ht]

/-! ## Theorems about the orchestrator flows -/

/-- Claim C2: whenever any register check fails — missing fields, wrong
challenge action, existing user, reused nonce, validator failure, or bad
signature — register raises exactly the typed error of the first failing
check in the spec order and performs no state-mutating adapter call; when
every check passes it succeeds. -/
theorem register_typed_errors_atomic (env : AuthEnv) (request : RegisterRequest) :
    match registerSpecFirstError env request with
    | some e => register env request = (.error e, [])
    | none => ∃ r, (register env request).1 = .ok r := by
  unfold register registerSpecFirstError
  cases hc : request.challenge with
  | none => simp
  | some c =>
    simp only [Option.isNone_some, Bool.or_false]
    split_ifs <;> simp_all

/-- Claim C8: createChallenge returns a discriminated result for every
protocol outcome — the generic validation failures, USER_NOT_FOUND with
hint register, USER_EXISTS with hint authenticate — and otherwise builds
the challenge from a fresh nonce, the current time, the configured domain,
the requested action and the configured TTL, persists it unused and bound
to the requesting key, and returns it with its id. -/
theorem createChallenge_matches_spec (env : AuthEnv) (request : ChallengeRequest) :
    match createChallengeSpecError env request with
    | some fe => createChallenge env request = (.fail fe.1 fe.2, [])
    | none =>
      createChallenge env request =
        (.ok (specFreshChallenge env request) (env.freshId "ch"),
         [.saveChallenge
            { id := env.freshId "ch", nonce := env.freshNonce, timestamp := env.now,
              domain := env.config.currentDomain, action := request.action,
              expiresAt := env.now + env.config.challengeTTL,
              publicKey := some request.publicKey, used := false, createdAt := env.now }]) := by
  unfold createChallenge createChallengeSpecError specFreshChallenge
  split_ifs <;> simp_all

/-- Find-after-replace on the association list underlying the store: when
a key is present, replacing its value in place is observable at that key. -/
theorem find_map_replace (cid : String) (repl : StoredChallenge) :
    ∀ (l : List (String × StoredChallenge)) (x : String × StoredChallenge),
      (l.find? fun kv => kv.fst == cid) = some x →
      ((l.map fun kv => if kv.fst == cid then (kv.fst, repl) else kv).find?
          fun kv => kv.fst == cid).map Prod.snd = some repl := by
  intro l
  induction l with
  | nil => intro x hx; simp at hx
  | cons hd tl ih =>
    intro x hx
    by_cases hk : (hd.fst == cid) = true
    · rw [List.map_cons, List.find?_cons_of_pos _ (by simp [hk])]
      simp [hk]
    · rw [List.find?_cons_of_neg _ (by simp [hk])] at hx
      rw [List.map_cons, List.find?_cons_of_neg _ (by simp [hk])]
      exact ih x hx

/-- markAsUsed flips exactly the targeted record to used, as observed
through findById. -/
theorem MemoryChallengeStore.markAsUsed_findById (s : MemoryChallengeStore) (cid : String)
    (sc : StoredChallenge) (h : s.findById cid = some sc) :
    (s.markAsUsed cid).2.findById cid = some { sc with used := true } := by
  unfold MemoryChallengeStore.markAsUsed
  rw [h]
  unfold MemoryChallengeStore.findById at h ⊢
  rcases hx : s.challenges.find? fun kv => kv.fst == cid with _ | x
  · rw [hx] at h; simp at h
  · have hsc : x.snd = sc := by rw [hx] at h; simpa using h
    subst hsc
    exact find_map_replace cid _ s.challenges x hx

/-- Successful verify presupposes a nonempty challenge id naming a stored
challenge that is not yet used. -/
theorem verify_ok_inversion (env : AuthEnv) (request : VerifyRequest) (r : AuthSuccess)
    (h : (verify env request).1 = .ok r) :
    request.challengeId.isEmpty = false ∧
    ∃ sc, env.findChallengeById request.challengeId = some sc ∧ sc.used = false := by
  unfold verify at h
  rcases hc : request.challenge with _ | c <;> rw [hc] at h
  · simp at h
  · dsimp only at h
    by_cases h0 : (request.challengeId.isEmpty || request.signature.isEmpty ||
        request.publicKey.isEmpty) = true
    · rw [if_pos h0] at h; simp at h
    · rw [if_neg h0] at h
      have h0' : request.challengeId.isEmpty = false := by
        rcases Bool.or_eq_false_iff.mp (Bool.eq_false_iff.mpr h0) with ⟨hab, _⟩
        exact (Bool.or_eq_false_iff.mp hab).1
      refine ⟨h0', ?_⟩
      by_cases h1 : c.action ≠ "authenticate"
      · rw [if_pos h1] at h; simp at h
      · rw [if_neg h1] at h
        rcases hs : env.findChallengeById request.challengeId with _ | sc <;> rw [hs] at h
        · simp at h
        · dsimp only at h
          by_cases hu : sc.used = true
          · rw [if_pos hu] at h; simp at h
          · exact ⟨sc, rfl, Bool.eq_false_iff.mpr hu⟩

/-- Claim C1: the verify checks run in the fixed spec order with the spec
error codes, only a fully passing run mutates state (mark used, update
last login, create session, issue tokens) and succeeds; and replaying the
same challenge id against the store produced by the successful run (the
in-memory store semantics, where markAsUsed flips the record to used)
fails with NONCE_REUSED and mutates nothing. -/
theorem verify_check_order_and_replay :
    (∀ (env : AuthEnv) (request : VerifyRequest),
      match verifySpecFirstError env request with
      | some e => verify env request = (.error e, [])
      | none =>
        ∃ user, env.findByPublicKey request.publicKey = some user ∧
          verify env request =
            (.ok ⟨user, user.publicKey, env.createSession user.id user.publicKey.id,
                  env.generateTokens user.id user.publicKey.id
                    (env.createSession user.id user.publicKey.id)⟩,
             [.markAsUsed request.challengeId,
              .updateLastLogin user.id request.publicKey,
              .createSession user.id user.publicKey.id,
              .generateTokens user.id user.publicKey.id
                (env.createSession user.id user.publicKey.id)])) ∧
    (∀ (env env' : AuthEnv) (store : MemoryChallengeStore) (request request' : VerifyRequest)
        (r : AuthSuccess) (c' : Challenge),
      env.findChallengeById = store.findById →
      (verify env request).1 = .ok r →
      env'.findChallengeById = (store.markAsUsed request.challengeId).2.findById →
      request'.challengeId = request.challengeId →
      request'.challenge = some c' → c'.action = "authenticate" →
      request'.signature.isEmpty = false → request'.publicKey.isEmpty = false →
      verify env' request' =
        (.error ⟨"NONCE_REUSED", "This challenge has already been used", 400, none⟩, [])) := by
  constructor
  · intro env request
    unfold verify verifySpecFirstError
    rcases hc : request.challenge with _ | c
    · simp
    · simp only [Option.isNone_some, Bool.or_false]
      by_cases h0 : (request.challengeId.isEmpty || request.signature.isEmpty ||
          request.publicKey.isEmpty) = true
      · simp [h0]
      · simp only [h0, Bool.false_eq_true, if_false, if_neg]
        by_cases h1 : c.action ≠ "authenticate"
        · simp [h1]
        · simp only [h1, if_false, if_neg]
          rcases hs : env.findChallengeById request.challengeId with _ | sc
          · simp
          · by_cases hu2 : sc.used = true
            · simp [hu2]
            · rcases hu : env.findByPublicKey request.publicKey with _ | user <;>
                simp only [hu2, Bool.false_eq_true, if_false] <;>
                split_ifs <;> simp_all
  · intro env env' store request request' r c' hfe hok hfe' hid hch hact hsig hpk
    obtain ⟨hne, sc, hsc, hused⟩ := verify_ok_inversion env request r hok
    rw [hfe] at hsc
    have hmark := MemoryChallengeStore.markAsUsed_findById store request.challengeId sc hsc
    unfold verify
    rw [hch]
    dsimp only
    have hne' : request'.challengeId.isEmpty = false := by rw [hid]; exact hne
    rw [if_neg (by simp [hne', hsig, hpk])]
    rw [if_neg (by simp [hact])]
    rw [hfe', hid, hmark]
    simp

/-- Witness for claim C1: the fixture verify succeeds, and replaying the
same challenge id against the post-success store raises NONCE_REUSED. -/
theorem verify_check_order_and_replay_witness :
    (verify envA reqA).1 = .ok okA ∧
    verify envA2 reqA =
      (.error ⟨"NONCE_REUSED", "This challenge has already been used", 400, none⟩, []) :=
  ⟨rfl, verify_check_order_and_replay.2 envA envA2 storeA reqA reqA okA chA rfl rfl rfl rfl
    rfl rfl rfl rfl⟩

/-- Claim C3 counterexample: a verify call whose submitted challenge has
action authenticate while the stored challenge under the same id has
action register is not rejected — it succeeds and performs every state
mutation, because verify never compares the stored record's action. -/
theorem verify_ignores_stored_action_counterexample :
    (envReg.findChallengeById "cid1").map StoredChallenge.action = some "register" ∧
    reqA.challenge.map Challenge.action = some "authenticate" ∧
    (verify envReg reqA).1 = .ok okA ∧
    (verify envReg reqA).2 =
      [.markAsUsed "cid1", .updateLastLogin "u1" "pkA", .createSession "u1" "k1",
       .generateTokens "u1" "k1" "sess1"] :=
  ⟨rfl, rfl, rfl, rfl⟩

/-- Claim C3 (amended): the action comparison the code performs is
between the endpoint and the submitted challenge only: a verify call
whose submitted challenge action differs from authenticate, and a
register call whose submitted challenge action differs from register,
are rejected with a typed error before any state-mutating adapter call;
the stored challenge's own action is never consulted. -/
theorem declared_action_mismatch_rejected (env : AuthEnv) (vreq : VerifyRequest)
    (rreq : RegisterRequest) (c c₂ : Challenge) :
    (vreq.challenge = some c → c.action ≠ "authenticate" →
      ∃ e, (verify env vreq).1 = .error e ∧ (verify env vreq).2 = []) ∧
    (rreq.challenge = some c₂ → c₂.action ≠ "register" →
      ∃ e, (register env rreq).1 = .error e ∧ (register env rreq).2 = []) := by
  constructor
  · intro hch hact
    unfold verify
    rw [hch]
    dsimp only
    by_cases h0 : (vreq.challengeId.isEmpty || vreq.signature.isEmpty ||
        vreq.publicKey.isEmpty) = true
    · rw [if_pos h0]; exact ⟨_, rfl, rfl⟩
    · rw [if_neg h0, if_pos hact]; exact ⟨_, rfl, rfl⟩
  · intro hch hact
    unfold register
    rw [hch]
    dsimp only
    by_cases h0 : (rreq.publicKey.isEmpty || rreq.signature.isEmpty) = true
    · rw [if_pos h0]; exact ⟨_, rfl, rfl⟩
    · rw [if_neg h0, if_pos hact]; exact ⟨_, rfl, rfl⟩

/-- Witness for the amended claim C3 at the fixture requests. -/
theorem declared_action_mismatch_rejected_witness :
    (∃ e, (verify envA reqBadV).1 = .error e ∧ (verify envA reqBadV).2 = []) ∧
    (∃ e, (register envA reqBadR).1 = .error e ∧ (register envA reqBadR).2 = []) :=
  ⟨(declared_action_mismatch_rejected envA reqBadV reqBadR chReg chA).1 rfl (by decide),
   (declared_action_mismatch_rejected envA reqBadV reqBadR chReg chA).2 rfl (by decide)⟩

/-- Claim C4 counterexample: resolveConfig keeps an explicitly zero
challengeTTL (the nullish-coalescing default applies only to an absent
value), and the challenge then constructed has expiresAt equal to its
timestamp, not greater. -/
theorem createChallenge_ttl_zero_counterexample :
    (resolveConfig ⟨["example.com"], some 0, none⟩).challengeTTL = 0 ∧
    ((createChallenge envTTL0 ⟨"pkB", "register"⟩).1.challengeOf.map
        fun ch => decide (ch.timestamp < ch.expiresAt)) = some false :=
  ⟨rfl, by decide⟩

/-- Claim C4 (amended): every challenge constructed by createChallenge
under a configuration whose resolved challengeTTL is positive — which
includes every configuration that omits challengeTTL, since the default
is 300000 — satisfies expiresAt > timestamp.  With an explicit TTL of 0
the construction yields expiresAt = timestamp instead. -/
theorem createChallenge_expiry_after_timestamp (cfg : SeedKeyConfig) (env : AuthEnv)
    (request : ChallengeRequest) (ch : Challenge) (cid : String)
    (hcfg : env.config = resolveConfig cfg) (hpos : 0 < (resolveConfig cfg).challengeTTL)
    (hok : (createChallenge env request).1 = .ok ch cid) :
    ch.timestamp < ch.expiresAt := by
  unfold createChallenge at hok
  split_ifs at hok
  simp_all
  obtain ⟨hch, -⟩ := hok
  rw [← hch]
  simp [hcfg]
  omega

/-- Witness for the amended claim C4 at the default-TTL fixture. -/
theorem createChallenge_expiry_after_timestamp_witness :
    (Challenge.mk "nonceB" 10 "example.com" "register" 300010).timestamp <
      (Challenge.mk "nonceB" 10 "example.com" "register" 300010).expiresAt :=
  createChallenge_expiry_after_timestamp ⟨["example.com"], none, none⟩ envA
    ⟨"pkB", "register"⟩ (Challenge.mk "nonceB" 10 "example.com" "register" 300010) "ch_1"
    rfl (by decide) (by decide)

/-- Replacement keyed at a different id is invisible to findById. -/
theorem find_map_replace_other (cid sid : String) (repl : StoredChallenge) (hne : cid ≠ sid) :
    ∀ (l : List (String × StoredChallenge)),
      ((l.map fun kv => if kv.fst == sid then (kv.fst, repl) else kv).find?
          fun kv => kv.fst == cid) = l.find? fun kv => kv.fst == cid := by
  intro l
  induction l with
  | nil => simp
  | cons hd tl ih =>
    rw [List.map_cons]
    by_cases hk : (hd.fst == sid) = true
    · have hcid : (hd.fst == cid) = false := by
        have h1 : hd.fst = sid := by simpa using hk
        simp [h1, Ne.symm hne]
      rw [if_pos hk]
      simp only [List.find?_cons]
      rw [hcid]
      exact ih
    · rw [if_neg hk]
      simp only [List.find?_cons]
      rw [ih]

/-- Saving a record under a fresh id leaves every other id's stored
record unchanged. -/
theorem MemoryChallengeStore.save_findById_other (s : MemoryChallengeStore)
    (sc : StoredChallenge) (cid : String) (sc0 : StoredChallenge)
    (h : s.findById cid = some sc0) (hne : cid ≠ sc.id) :
    (s.save sc).findById cid = some sc0 := by
  unfold MemoryChallengeStore.save MemoryChallengeStore.findById
  unfold MemoryChallengeStore.findById at h
  by_cases hp : (s.challenges.any fun kv => kv.fst == sc.id) = true
  · rw [if_pos hp]
    rw [find_map_replace_other cid sc.id sc hne s.challenges]
    exact h
  · rw [if_neg hp]
    rcases hx : s.challenges.find? (fun kv => kv.fst == cid) with _ | x
    · rw [hx] at h; simp at h
    · rw [List.find?_append, hx]
      rw [hx] at h
      exact h

/-- Successful register presupposes a present challenge and implies the
success branch was taken, pinning the effect list. -/
theorem register_ok_effects (env : AuthEnv) (request : RegisterRequest) (c : Challenge)
    (r : AuthSuccess) (hch : request.challenge = some c)
    (hok : (register env request).1 = .ok r) :
    (register env request).2 =
      [.createUser request.publicKey request.metadata,
       .saveChallenge (registerSavedRecord env request c),
       .createSession (env.createUser request.publicKey request.metadata).id
         (env.createUser request.publicKey request.metadata).publicKey.id,
       .generateTokens (env.createUser request.publicKey request.metadata).id
         (env.createUser request.publicKey request.metadata).publicKey.id
         (env.createSession (env.createUser request.publicKey request.metadata).id
           (env.createUser request.publicKey request.metadata).publicKey.id)] := by
  unfold register at hok ⊢
  rw [hch] at hok ⊢
  dsimp only at hok ⊢
  split_ifs at hok
  simp_all

/-- Claim C9: register never reads the stored-challenge index (it is
independent of `findChallengeById`), and on success it records nonce
consumption only by saving a brand-new StoredChallenge under the freshly
generated id with used = true; under the in-memory store semantics the
original record under any other id — in particular the one createChallenge
persisted — keeps its used = false flag, while the used-nonce index now
reports the nonce as used. -/
theorem register_fresh_used_record (env : AuthEnv) (request : RegisterRequest) (c : Challenge)
    (r : AuthSuccess) (store : MemoryChallengeStore) (cid : String) (sc0 : StoredChallenge) :
    (∀ f, register { env with findChallengeById := f } request = register env request) ∧
    (request.challenge = some c → (register env request).1 = .ok r →
      ((register env request).2.filter
          (fun e => match e with | .saveChallenge _ => true | _ => false)) =
        [.saveChallenge (registerSavedRecord env request c)] ∧
      (registerSavedRecord env request c).id = env.freshId "ch" ∧
      (registerSavedRecord env request c).used = true ∧
      (∀ e, e ∈ (register env request).2 → e ≠ .markAsUsed cid) ∧
      (store.findById cid = some sc0 → cid ≠ env.freshId "ch" →
        (store.save (registerSavedRecord env request c)).findById cid = some sc0 ∧
        (store.save (registerSavedRecord env request c)).isNonceUsed c.nonce = true)) := by
  constructor
  · intro f; rfl
  · intro hch hok
    have heff := register_ok_effects env request c r hch hok
    refine ⟨?_, rfl, rfl, ?_, ?_⟩
    · rw [heff]; rfl
    · intro e he
      rw [heff] at he
      simp only [List.mem_cons, List.not_mem_nil, or_false] at he
      rcases he with h | h | h | h <;> subst h <;> simp
    · intro hfind hne
      refine ⟨MemoryChallengeStore.save_findById_other store _ cid sc0 hfind ?_, ?_⟩
      · simpa [registerSavedRecord] using hne
      · simp [MemoryChallengeStore.save, MemoryChallengeStore.isNonceUsed, registerSavedRecord]

/-- Witness for claim C9 at the fixture register flow: the new record is
saved under `ch_1` while the original `cid1` record stays unused. -/
theorem register_fresh_used_record_witness :
    ((register envA reqReg).2.filter
        (fun e => match e with | .saveChallenge _ => true | _ => false)) =
      [.saveChallenge (registerSavedRecord envA reqReg chReg)] ∧
    (registerSavedRecord envA reqReg chReg).id = envA.freshId "ch" ∧
    (registerSavedRecord envA reqReg chReg).used = true ∧
    (∀ e, e ∈ (register envA reqReg).2 → e ≠ .markAsUsed "cid1") ∧
    ((storeA.findById "cid1" = some storedA → "cid1" ≠ envA.freshId "ch" →
      (storeA.save (registerSavedRecord envA reqReg chReg)).findById "cid1" = some storedA ∧
      (storeA.save (registerSavedRecord envA reqReg chReg)).isNonceUsed chReg.nonce = true)) :=
  (register_fresh_used_record envA reqReg chReg
    ⟨userA, userA.publicKey, "sess1", ⟨"at", "rt", 3600⟩⟩ storeA "cid1" storedA).2 rfl rfl

/-- Claim C10: verify is independent of the boolean the challenge adapter
returns from markAsUsed, and when every check passes but that boolean is
false it still updates last login, creates a session, requests tokens and
returns success. -/
theorem verify_discards_markAsUsed_result (env : AuthEnv) (request : VerifyRequest)
    (c : Challenge) (user : User) (sc : StoredChallenge) :
    (∀ m, verify { env with markAsUsedResult := m } request = verify env request) ∧
    (env.markAsUsedResult request.challengeId = false →
     request.challenge = some c →
     request.challengeId.isEmpty = false → request.signature.isEmpty = false →
     request.publicKey.isEmpty = false → c.action = "authenticate" →
     env.findChallengeById request.challengeId = some sc → sc.used = false →
     env.isNonceUsed c.nonce = false →
     (validateChallenge c (some (.inr env.config.allowedDomains)) env.now).valid = true →
     env.findByPublicKey request.publicKey = some user →
     env.verifySig c request.signature request.publicKey = true →
     verify env request =
       (.ok ⟨user, user.publicKey, env.createSession user.id user.publicKey.id,
             env.generateTokens user.id user.publicKey.id
               (env.createSession user.id user.publicKey.id)⟩,
        [.markAsUsed request.challengeId,
         .updateLastLogin user.id request.publicKey,
         .createSession user.id user.publicKey.id,
         .generateTokens user.id user.publicKey.id
           (env.createSession user.id user.publicKey.id)])) := by
  constructor
  · intro m; rfl
  · intro _ hch h1 h2 h3 hact hsc hused hn hv hu hsig
    unfold verify
    rw [hch]
    dsimp only
    rw [if_neg (by simp [h1, h2, h3])]
    rw [if_neg (by simp [hact])]
    rw [hsc]
    dsimp only
    rw [if_neg (by simp [hused]), if_neg (by simp [hn]), if_neg (by simp [hv]), hu]
    dsimp only
    rw [if_neg (by simp [hsig])]

/-- Witness for claim C10: with the fixture adapter whose markAsUsed
reports false, verify still succeeds with the full mutation sequence. -/
theorem verify_discards_markAsUsed_result_witness :
    verify envNoMark reqA =
      (.ok ⟨userA, userA.publicKey, "sess1", ⟨"at", "rt", 3600⟩⟩,
       [.markAsUsed "cid1", .updateLastLogin "u1" "pkA", .createSession "u1" "k1",
        .generateTokens "u1" "k1" "sess1"]) :=
  (verify_discards_markAsUsed_result envNoMark reqA chA userA storedA).2
    rfl rfl rfl rfl rfl rfl rfl rfl rfl rfl rfl rfl

end SeedKey
